import Mathlib

/-!
Verification of the TFID-Glove embedding/visualization service against its
specification.  The visible repository source is the Next.js page
`embedding/src/app/page.tsx`; its request-building handlers are embedded
shallowly below.  The backend core components (embedding table, TF-IDF
engine, dimensionality reducer, color assigner, visualization cache) are not
part of the visible source and are modelled from the specification where a
claim needs them.
-/

namespace TfidGlove

/-! ### JavaScript string primitives

The page manipulates strings with `String.prototype.split`,
`String.prototype.trim` and truthiness tests.  They are embedded here over
`List Char`, matching JavaScript semantics for single-character separators:
`"".split(c)` is `[""]`, and empty fields between adjacent separators are
kept. -/

/-- Characters treated as whitespace by `String.prototype.trim`
(approximated by Lean's `Char.isWhitespace`, which covers space, tab and
line terminators). -/
def isJsWhitespace (c : Char) : Bool := c.isWhitespace

/-- Split a character list at every character satisfying `p`, keeping empty
fields, as JavaScript `split` does for a single-character separator (and as
the spec's "split on non-alphanumeric boundaries" before dropping empties). -/
def splitOnPred (p : Char → Bool) : List Char → List (List Char)
  | [] => [[]]
  | c :: rest =>
    match splitOnPred p rest with
    | [] => if p c then [[], []] else [[c]]
    | h :: t => if p c then [] :: h :: t else (c :: h) :: t

/-- JavaScript `s.split(sep)` for a single-character separator. -/
def jsSplit (s : String) (sep : Char) : List String :=
  (splitOnPred (fun c => c = sep) s.data).map List.asString

/-- JavaScript `s.trim()`: strip leading and trailing whitespace. -/
def jsTrim (s : String) : String :=
  (((s.data.dropWhile isJsWhitespace).reverse.dropWhile isJsWhitespace).reverse).asString

/-! ### Page state and request payloads (from `page.tsx`) -/

/-- The React state of the page that the request handlers read:
`words` (text input shared by the embeddings and visualize tabs),
`documents` (textarea of the TF-IDF tab), `visualizationMethod`,
`perplexity` and `dimensions`. -/
structure PageState where
  words : String
  documents : String
  visualizationMethod : String
  perplexity : Int
  dimensions : Nat
deriving Repr, DecidableEq

/-- Initial state set by the `useState` calls in `page.tsx`. -/
def initialState : PageState :=
  { words := "", documents := "", visualizationMethod := "tsne",
    perplexity := 30, dimensions := 2 }

/-- Body of the POST to `/embeddings` built by `handleEmbeddingSubmit`. -/
structure EmbeddingsRequest where
  words : List String
deriving Repr, DecidableEq

/-- Body of the POST to `/visualize` built by `handleVisualization`. -/
structure VisualizeRequest where
  words : List String
  method : String
  perplexity : Int
  n_components : Nat
deriving Repr, DecidableEq

/-- Body of the POST to `/tfidf` built by `handleTfidfSubmit`. -/
structure TfidfRequest where
  documents : List String
deriving Repr, DecidableEq

/-- `words.split(',').map(word => word.trim()).filter(word => word)` as it
appears in `handleEmbeddingSubmit` (page.tsx line 52). -/
def embeddingWordList (words : String) : List String :=
  ((jsSplit words ',').map jsTrim).filter (fun w => w ≠ "")

/-- The identical expression on page.tsx line 80, inside
`handleVisualization`. -/
def visualizationWordList (words : String) : List String :=
  ((jsSplit words ',').map jsTrim).filter (fun w => w ≠ "")

/-- `handleEmbeddingSubmit` posts the parsed word list unconditionally. -/
def handleEmbeddingSubmit (st : PageState) : EmbeddingsRequest :=
  { words := embeddingWordList st.words }

/-- `handleVisualization` (page.tsx lines 75–110): parse the word list,
throw before the `fetch` when fewer than 2 words were parsed, otherwise
post words, method, perplexity and n_components.  `Except.error` models the
thrown error (no HTTP request issued); `Except.ok` carries the issued
request body. -/
def handleVisualization (st : PageState) : Except String VisualizeRequest :=
  let wordList := visualizationWordList st.words
  if wordList.length < 2 then
    Except.error "Please enter at least 2 words for visualization"
  else
    Except.ok { words := wordList, method := st.visualizationMethod,
                perplexity := st.perplexity, n_components := st.dimensions }

/-- `handleTfidfSubmit` (page.tsx lines 112–138):
`documents.split('\n').filter(doc => doc.trim())` — lines whose trim is the
empty string (falsy) are dropped, kept lines are posted unmodified. -/
def handleTfidfSubmit (st : PageState) : TfidfRequest :=
  { documents := (jsSplit st.documents '\n').filter (fun d => jsTrim d ≠ "") }

/-! ### Reachable page states

The only event handlers that write the state fields read by
`handleVisualization` are: the two words inputs (arbitrary text), the
method `<select>` whose options are exactly `tsne` and `pca`, the
perplexity number input (`parseInt` of the field, an arbitrary integer),
and the dimensions `<select>` whose options are exactly `"2"` and `"3"`
(`parseInt` giving 2 or 3). -/

/-- One user interaction with the page controls. -/
inductive PageEvent where
  | setWords (s : String)
  | setDocuments (s : String)
  | setMethod (m : String) (h : m = "tsne" ∨ m = "pca")
  | setPerplexity (n : Int)
  | setDimensions (d : Nat) (h : d = 2 ∨ d = 3)

/-- Effect of an interaction on the page state. -/
def step (st : PageState) : PageEvent → PageState
  | .setWords s => { st with words := s }
  | .setDocuments s => { st with documents := s }
  | .setMethod m _ => { st with visualizationMethod := m }
  | .setPerplexity n => { st with perplexity := n }
  | .setDimensions d _ => { st with dimensions := d }

/-- States reachable from the initial render through the page's controls. -/
inductive Reachable : PageState → Prop where
  | init : Reachable initialState
  | step {st : PageState} (e : PageEvent) : Reachable st → Reachable (step st e)

/-! ### Helper lemmas about the handlers and the state machine -/

/-- When `handleVisualization` issues a request, each field of the request
body is the corresponding piece of page state, untouched. -/
lemma handleVisualization_ok_fields (st : PageState) (r : VisualizeRequest)
    (h : handleVisualization st = Except.ok r) :
    r.words = visualizationWordList st.words ∧
    r.method = st.visualizationMethod ∧
    r.perplexity = st.perplexity ∧
    r.n_components = st.dimensions := by
  by_cases hlen : (visualizationWordList st.words).length < 2
  · simp only [handleVisualization, if_pos hlen] at h
    exact absurd h (by simp)
  · simp only [handleVisualization, if_neg hlen] at h
    cases h
    exact ⟨rfl, rfl, rfl, rfl⟩

/-- Invariant of the page state machine: the method select only ever holds
`tsne` or `pca`, and the dimensions select only ever holds 2 or 3. -/
lemma reachable_method_dims (st : PageState) (h : Reachable st) :
    (st.visualizationMethod = "tsne" ∨ st.visualizationMethod = "pca") ∧
    (st.dimensions = 2 ∨ st.dimensions = 3) := by
  induction h with
  | init => exact ⟨Or.inl rfl, Or.inl rfl⟩
  | step e h ih =>
    cases e with
    | setWords s => exact ih
    | setDocuments s => exact ih
    | setMethod m hm => exact ⟨hm, ih.2⟩
    | setPerplexity n => exact ih
    | setDimensions d hd => exact ⟨ih.1, hd⟩

/-! ### Claims about the request handlers -/

/-- C1: a visualize submission whose parsed word list (comma-split, trimmed,
empty entries removed) has fewer than 2 entries throws the validation error
before the `fetch`, so no HTTP request is issued; with at least 2 parsed
words no such pre-validation failure occurs and the request is issued. -/
theorem visualize_requires_two_words (st : PageState) :
    ((visualizationWordList st.words).length < 2 →
      handleVisualization st =
        Except.error "Please enter at least 2 words for visualization") ∧
    (2 ≤ (visualizationWordList st.words).length →
      handleVisualization st = Except.ok
        { words := visualizationWordList st.words,
          method := st.visualizationMethod,
          perplexity := st.perplexity,
          n_components := st.dimensions }) := by
  constructor
  · intro h
    simp only [handleVisualization, if_pos h]
  · intro h
    simp only [handleVisualization, if_neg (by omega : ¬ (visualizationWordList st.words).length < 2)]

/-- Witness for C1: `words = "only"` fails validation, `words = "a,b"`
issues the request. -/
theorem visualize_requires_two_words_w :
    handleVisualization { initialState with words := "only" } =
      Except.error "Please enter at least 2 words for visualization" ∧
    handleVisualization { initialState with words := "a,b" } = Except.ok
      { words := visualizationWordList "a,b", method := "tsne",
        perplexity := 30, n_components := 2 } :=
  ⟨(visualize_requires_two_words _).1 (by decide),
   (visualize_requires_two_words _).2 (by decide)⟩

/-- C2 counterexample: the reachable state obtained by typing `a,b` (with
the default perplexity 30) issues a visualize request whose perplexity, 30,
is not strictly less than the 2-word point count — nothing is rejected or
clamped before sending. -/
theorem visualize_perplexity_not_clamped_cex :
    Reachable { initialState with words := "a,b" } ∧
    handleVisualization { initialState with words := "a,b" } =
      Except.ok { words := ["a", "b"], method := "tsne",
                  perplexity := 30, n_components := 2 } ∧
    ¬ ((30 : Int) < (["a", "b"] : List String).length) :=
  ⟨Reachable.step (PageEvent.setWords "a,b") Reachable.init, rfl, by decide⟩

/-- C2 (amended): every issued visualize request carries the perplexity
state value (and the parsed word list) unchanged; the client performs no
comparison of perplexity with the word count and no clamping. -/
theorem visualize_sends_perplexity_unchanged (st : PageState)
    (r : VisualizeRequest) (h : handleVisualization st = Except.ok r) :
    r.perplexity = st.perplexity ∧ r.words = visualizationWordList st.words :=
  ⟨(handleVisualization_ok_fields st r h).2.2.1,
   (handleVisualization_ok_fields st r h).1⟩

/-- Witness for the amended C2 at the concrete state with `words = "a,b"`. -/
theorem visualize_sends_perplexity_unchanged_w :
    (VisualizeRequest.mk ["a", "b"] "tsne" 30 2).perplexity =
      ({ initialState with words := "a,b" } : PageState).perplexity ∧
    (VisualizeRequest.mk ["a", "b"] "tsne" 30 2).words =
      visualizationWordList ({ initialState with words := "a,b" } : PageState).words :=
  visualize_sends_perplexity_unchanged _ _ rfl

/-- C3: from any reachable page state, an issued visualize request has
`method ∈ {"pca", "tsne"}` and `n_components ∈ {2, 3}`: the two selects
offer exactly these options and nothing else writes those state fields. -/
theorem visualize_method_dims_closed (st : PageState) (hst : Reachable st)
    (r : VisualizeRequest) (h : handleVisualization st = Except.ok r) :
    (r.method = "pca" ∨ r.method = "tsne") ∧
    (r.n_components = 2 ∨ r.n_components = 3) := by
  obtain ⟨-, hm, -, hd⟩ := handleVisualization_ok_fields st r h
  obtain ⟨him, hid⟩ := reachable_method_dims st hst
  rw [hm, hd]
  exact ⟨him.symm, hid⟩

/-- Witness for C3 at the reachable state with `words = "a,b"`. -/
theorem visualize_method_dims_closed_w :
    ((VisualizeRequest.mk ["a", "b"] "tsne" 30 2).method = "pca" ∨
      (VisualizeRequest.mk ["a", "b"] "tsne" 30 2).method = "tsne") ∧
    ((VisualizeRequest.mk ["a", "b"] "tsne" 30 2).n_components = 2 ∨
      (VisualizeRequest.mk ["a", "b"] "tsne" 30 2).n_components = 3) :=
  visualize_method_dims_closed _
    (Reachable.step (PageEvent.setWords "a,b") Reachable.init) _ rfl

/-- C8: `handleEmbeddingSubmit` and `handleVisualization` post the same
word list — each is the comma-split, trimmed, empty-entries-removed token
list of the same `words` state, in the same order. -/
theorem embedding_and_visualize_word_lists_agree (st : PageState) :
    (handleEmbeddingSubmit st).words = visualizationWordList st.words ∧
    ∀ r, handleVisualization st = Except.ok r →
      r.words = (handleEmbeddingSubmit st).words := by
  refine ⟨rfl, fun r h => ?_⟩
  rw [(handleVisualization_ok_fields st r h).1]
  rfl

/-- Witness for C8 at the concrete state with `words = "a,b"`. -/
theorem embedding_and_visualize_word_lists_agree_w :
    (VisualizeRequest.mk ["a", "b"] "tsne" 30 2).words =
      (handleEmbeddingSubmit { initialState with words := "a,b" }).words :=
  (embedding_and_visualize_word_lists_agree _).2 _ rfl

/-! ### Trim characterization, for the `/tfidf` handler (C10) -/

/-- Dropping the satisfying prefix does not change whether every element
satisfies the predicate. -/
lemma all_dropWhile_iff (p : Char → Bool) (l : List Char) :
    (∀ c ∈ l.dropWhile p, p c = true) ↔ (∀ c ∈ l, p c = true) := by
  constructor
  · intro h c hc
    rw [← List.takeWhile_append_dropWhile p l] at hc
    rcases List.mem_append.mp hc with htk | hdr
    · exact List.mem_takeWhile_imp htk
    · exact h c hdr
  · intro h c hc
    exact h c ((List.dropWhile_sublist p).mem hc)

/-- A string trims to the empty string exactly when all of its characters
are whitespace. -/
lemma jsTrim_eq_empty_iff (s : String) :
    jsTrim s = "" ↔ ∀ c ∈ s.data, isJsWhitespace c = true := by
  unfold jsTrim
  rw [show (((s.data.dropWhile isJsWhitespace).reverse.dropWhile
        isJsWhitespace).reverse.asString = "") ↔
      ((s.data.dropWhile isJsWhitespace).reverse.dropWhile
        isJsWhitespace).reverse = [] from String.ext_iff]
  rw [List.reverse_eq_nil_iff, List.dropWhile_eq_nil_iff]
  constructor
  · intro h c hc
    exact (all_dropWhile_iff isJsWhitespace s.data).mp
      (fun d hd => h d (List.mem_reverse.mpr hd)) c hc
  · intro h c hc
    exact h c ((List.dropWhile_sublist isJsWhitespace).mem
      (List.mem_reverse.mp hc))

/-- The JavaScript truthiness test `doc.trim()` agrees with "some character
of the line is not whitespace". -/
lemma jsTrim_truthy_eq_any (d : String) :
    (decide (jsTrim d ≠ "")) = d.data.any (fun c => !(isJsWhitespace c)) := by
  cases hb : d.data.any (fun c => !(isJsWhitespace c)) with
  | false =>
    have hall : ∀ c ∈ d.data, isJsWhitespace c = true := by
      intro c hc
      have := List.any_eq_false.mp hb c hc
      simpa using this
    simp [(jsTrim_eq_empty_iff d).mpr hall]
  | true =>
    obtain ⟨c, hc, hnc⟩ := List.any_eq_true.mp hb
    have hne : jsTrim d ≠ "" := by
      intro he
      have := (jsTrim_eq_empty_iff d).mp he c hc
      simp [this] at hnc
    simp [hne]

/-- C10: the document list posted to `/tfidf` is the newline-split lines of
the textarea with whitespace-only lines removed — the kept lines untrimmed
and in order — so every posted document has a non-whitespace character. -/
theorem tfidf_documents_spec (st : PageState) :
    (handleTfidfSubmit st).documents =
      (jsSplit st.documents '\n').filter
        (fun d => d.data.any (fun c => !(isJsWhitespace c))) ∧
    ∀ d ∈ (handleTfidfSubmit st).documents,
      ∃ c ∈ d.data, isJsWhitespace c = false := by
  constructor
  · unfold handleTfidfSubmit
    exact List.filter_congr (fun d _ => jsTrim_truthy_eq_any d)
  · intro d hd
    have hp := List.of_mem_filter hd
    rw [jsTrim_truthy_eq_any d] at hp
    obtain ⟨c, hc, hnc⟩ := List.any_eq_true.mp hp
    exact ⟨c, hc, by simpa using hnc⟩

/-- Witness for C10: a textarea with blank and whitespace-only lines posts
exactly the other lines, untrimmed and in order. -/
theorem tfidf_documents_spec_w :
    (handleTfidfSubmit { initialState with documents := "a\n \n\nb c " }).documents =
      ["a", "b c "] := by
  rw [(tfidf_documents_spec { initialState with documents := "a\n \n\nb c " }).1]
  decide

/-! ### Scatter-chart formatting (C9, from `formatDataForScatterChart`)

The visualization result arrives as loosely-typed JSON: the whole result
and its `coordinates`/`colors` fields may be absent at runtime, which the
code guards with `!visualizationResults`, `!...coordinates` and `colors?.`.
Coordinate values only get copied, so they are modelled as `ℚ`.  JavaScript
out-of-range indexing yields `undefined`; it is modelled with a `getD`
default that is never exposed: `x`/`y` are only characterized for tuples of
length ≥ 2 and the `z` access is guarded by the length test in the code. -/

/-- The parsed visualization response as the chart code reads it. -/
structure VisualizationResultData where
  visualization_id : String
  method : String
  words : List String
  coordinates : Option (List (String × List ℚ))
  colors : Option (List (String × String))
deriving Repr, DecidableEq

/-- JavaScript property read `m[word]` on a string-valued record. -/
def lookupStr (m : List (String × String)) (w : String) : Option String :=
  (m.find? (fun p => p.1 == w)).map (fun p => p.2)

/-- JavaScript `v || dflt`: an absent value — and also the falsy empty
string — falls back to the default. -/
def jsOrDefault (v : Option String) (dflt : String) : String :=
  match v with
  | none => dflt
  | some s => if s = "" then dflt else s

/-- The theme-dependent fallback point color in `page.tsx`. -/
def defaultPointColor (isDarkMode : Bool) : String :=
  if isDarkMode then "#00C49F" else "#555555"

/-- One element of the array fed to the `<Scatter>` chart. -/
structure ScatterPoint where
  name : String
  x : ℚ
  y : ℚ
  z : Option ℚ
  color : String
deriving Repr, DecidableEq

/-- `formatDataForScatterChart` (page.tsx lines 140–152): empty list when
the result or its coordinates are absent, else one point per coordinate
entry with `x`/`y` the first two components, `z` spread in only when the
tuple has more than 2 components, and
`colors?.[word] || (isDarkMode ? "#00C49F" : "#555555")` for the color. -/
def formatDataForScatterChart (res : Option VisualizationResultData)
    (isDarkMode : Bool) : List ScatterPoint :=
  match res with
  | none => []
  | some r =>
    match r.coordinates with
    | none => []
    | some entries =>
      entries.map (fun p =>
        { name := p.1
          x := p.2.getD 0 0
          y := p.2.getD 1 0
          z := if 2 < p.2.length then some (p.2.getD 2 0) else none
          color := jsOrDefault (r.colors.bind (fun m => lookupStr m p.1))
                     (defaultPointColor isDarkMode) })

/-- C9 counterexample: the word `w` is present in the colors mapping with
the assigned color `""`, yet the produced point's color is the dark-mode
default `#00C49F`, not `""` — JavaScript `||` treats the empty string as
falsy. -/
def emptyColorResult : VisualizationResultData :=
  { visualization_id := "viz-1", method := "pca", words := ["w"],
    coordinates := some [("w", [0, 0])], colors := some [("w", "")] }

/-- C9 fails as stated: a word whose assigned color is present (but empty)
still gets the theme default. -/
theorem formatData_empty_color_cex :
    lookupStr [("w", "")] "w" = some "" ∧
    (formatDataForScatterChart (some emptyColorResult) true).map
      ScatterPoint.color = ["#00C49F"] ∧
    ("#00C49F" : String) ≠ "" :=
  ⟨rfl, rfl, by decide⟩

/-- C9 (amended): under the length-≥-2 precondition the formatter yields
one point per coordinate entry, in order (same names); each entry
`(w, x :: y :: rest)` yields the point with that `x`, that `y`, `z` the
optional third component, and the `||`-color (the assigned color when
present and non-empty, the theme default when absent or empty); an absent
result or coordinates mapping yields the empty list. -/
theorem formatDataForScatterChart_spec (r : VisualizationResultData)
    (dark : Bool) (entries : List (String × List ℚ))
    (hc : r.coordinates = some entries) :
    ((formatDataForScatterChart (some r) dark).map ScatterPoint.name =
      entries.map Prod.fst) ∧
    (∀ w x y rest, (w, x :: y :: rest) ∈ entries →
      ({ name := w, x := x, y := y, z := rest.head?,
         color := jsOrDefault (r.colors.bind (fun m => lookupStr m w))
                    (defaultPointColor dark) } : ScatterPoint) ∈
        formatDataForScatterChart (some r) dark) ∧
    formatDataForScatterChart none dark = [] ∧
    (∀ r2 : VisualizationResultData, r2.coordinates = none →
      formatDataForScatterChart (some r2) dark = []) := by
  refine ⟨?_, ?_, rfl, ?_⟩
  · simp only [formatDataForScatterChart, hc, List.map_map]
    rfl
  · intro w x y rest hmem
    simp only [formatDataForScatterChart, hc]
    refine List.mem_map.mpr ⟨(w, x :: y :: rest), hmem, ?_⟩
    rcases rest with _ | ⟨a, t⟩
    · rfl
    · dsimp only
      rw [if_pos (show 2 < (x :: y :: a :: t).length by
        simp only [List.length_cons]; omega)]
      rfl
  · intro r2 h2
    simp [formatDataForScatterChart, h2]

/-- A well-formed 3D sample response for the C9 witness. -/
def demoResult : VisualizationResultData :=
  { visualization_id := "viz-2", method := "pca", words := ["w"],
    coordinates := some [("w", [1, 2, 3])], colors := some [("w", "#ff0000")] }

/-- Witness for the amended C9 on a concrete 3D entry. -/
theorem formatDataForScatterChart_spec_w :
    ({ name := "w", x := 1, y := 2, z := some 3,
       color := jsOrDefault (demoResult.colors.bind (fun m => lookupStr m "w"))
                  (defaultPointColor true) } : ScatterPoint) ∈
      formatDataForScatterChart (some demoResult) true :=
  (formatDataForScatterChart_spec demoResult true _ rfl).2.1 "w" 1 2 [3]
    (by decide)

/-! ### Embedding Table (C4)

The backend core is not part of the visible repository source; the
embeddings lookup is modelled from spec §4.1. -/

/-- Modelled from the spec: the Embedding Table's `lookup(word)` — the
backend component absent from the visible source — is a case-sensitive
exact-match point lookup in the loaded vocabulary→vector mapping, with no
fallback vector. -/
def lookup (table : List (String × List ℚ)) (w : String) : Option (List ℚ) :=
  (table.find? (fun e => e.1 == w)).map (fun e => e.2)

/-- Modelled from the spec: `lookupMany(words)` — absent from the visible
source — resolves an ordered word sequence to a word→vector mapping,
silently omitting words not found. -/
def lookupMany (table : List (String × List ℚ)) (ws : List String) :
    List (String × List ℚ) :=
  ws.filterMap (fun w => (lookup table w).map (fun v => (w, v)))

/-- C4: the key set of `lookupMany table ws` is exactly the subset of `ws`
present in the table — no key outside `ws`, no present word missing — and
every returned vector is the table's vector for its word (never a
default). -/
theorem lookupMany_keys_exact (table : List (String × List ℚ))
    (ws : List String) :
    (∀ w, w ∈ (lookupMany table ws).map Prod.fst ↔
      w ∈ ws ∧ (lookup table w).isSome) ∧
    (∀ p ∈ lookupMany table ws, lookup table p.1 = some p.2) := by
  constructor
  · intro w
    simp only [lookupMany, List.mem_map, List.mem_filterMap]
    constructor
    · rintro ⟨p, ⟨a, ha, hfa⟩, hp⟩
      rcases Option.map_eq_some'.mp hfa with ⟨v, hv, hpv⟩
      rw [← hpv] at hp
      rw [← hp]
      exact ⟨ha, by rw [hv]; rfl⟩
    · rintro ⟨hw, hsome⟩
      rcases Option.isSome_iff_exists.mp hsome with ⟨v, hv⟩
      exact ⟨(w, v), ⟨w, hw, by rw [hv]; rfl⟩, rfl⟩
  · intro p hp
    simp only [lookupMany, List.mem_filterMap] at hp
    rcases hp with ⟨a, ha, hfa⟩
    rcases Option.map_eq_some'.mp hfa with ⟨v, hv, hpv⟩
    rw [← hpv]
    exact hv

/-- A small fixture table for the C4 witness. -/
def demoTable : List (String × List ℚ) := [("a", [1]), ("b", [2])]

/-- Witness for C4: querying `["a", "x"]` against the fixture table — the
present word `a` is a key and keeps its table vector. -/
theorem lookupMany_keys_exact_w :
    ("a" ∈ (lookupMany demoTable ["a", "x"]).map Prod.fst) ∧
    lookup demoTable "a" = some [1] :=
  ⟨((lookupMany_keys_exact demoTable ["a", "x"]).1 "a").mpr
      ⟨by decide, by decide⟩,
   (lookupMany_keys_exact demoTable ["a", "x"]).2 ("a", [1]) (by decide)⟩

/-! ### Visualization Cache (C5) -/

/-- Modelled from the spec: a completed visualization — method, requested
dimensionality, ordered labels, label→coordinates, label→colors — created
once and immutable; the backend type is absent from the visible source. -/
structure Visualization where
  method : String
  dims : Nat
  words : List String
  coordinates : List (String × List ℚ)
  colors : List (String × String)
deriving Repr, DecidableEq

/-- Modelled from the spec: the in-memory Visualization Cache, absent from
the visible source — entries keyed by generated identifier, plus the
monotonic counter generating fresh ids (the spec allows a counter as the
uniqueness mechanism). -/
structure VisualizationCache where
  nextId : Nat
  entries : List (Nat × Visualization)
deriving Repr, DecidableEq

/-- The cache at process start: no entries. -/
def VisualizationCache.empty : VisualizationCache := ⟨0, []⟩

/-- Modelled from the spec: `store(visualization) -> id` generates a fresh
unique identifier and inserts. -/
def VisualizationCache.store (c : VisualizationCache) (v : Visualization) :
    Nat × VisualizationCache :=
  (c.nextId, ⟨c.nextId + 1, (c.nextId, v) :: c.entries⟩)

/-- Modelled from the spec: `retrieve(id) -> Visualization | NotFound`. -/
def VisualizationCache.retrieve (c : VisualizationCache) (id : Nat) :
    Option Visualization :=
  (c.entries.find? (fun e => e.1 == id)).map (fun e => e.2)

/-- C5: on any cache satisfying the id invariant (every stored id is below
the counter), retrieving the id returned by `store v` yields `v`
unchanged; the generated id is fresh (not a key of any existing entry),
the next store generates a different id, and the invariant is preserved. -/
theorem cache_store_retrieve_roundtrip (c : VisualizationCache)
    (v : Visualization) (hwf : ∀ e ∈ c.entries, e.1 < c.nextId) :
    (c.store v).2.retrieve (c.store v).1 = some v ∧
    (c.store v).1 ∉ c.entries.map Prod.fst ∧
    (∀ w : Visualization, ((c.store v).2.store w).1 ≠ (c.store v).1) ∧
    (∀ e ∈ (c.store v).2.entries, e.1 < (c.store v).2.nextId) := by
  refine ⟨?_, ?_, ?_, ?_⟩
  · simp [VisualizationCache.store, VisualizationCache.retrieve]
  · intro hmem
    rcases List.mem_map.mp hmem with ⟨e, he, h1⟩
    have := hwf e he
    simp only [VisualizationCache.store] at h1
    omega
  · intro w
    simp [VisualizationCache.store]
  · intro e he
    simp only [VisualizationCache.store, List.mem_cons] at he
    rcases he with he | he
    · rw [he]
      exact Nat.lt_succ_self _
    · exact Nat.lt_succ_of_lt (hwf e he)

/-- A concrete visualization for the C5 witness. -/
def demoViz : Visualization :=
  { method := "pca", dims := 2, words := ["king", "queen"],
    coordinates := [("king", [0, 1]), ("queen", [1, 0])],
    colors := [("king", "#ff0000"), ("queen", "#00ff00")] }

/-- Witness for C5: round-trip through the empty cache. -/
theorem cache_store_retrieve_roundtrip_w :
    (VisualizationCache.empty.store demoViz).2.retrieve
      (VisualizationCache.empty.store demoViz).1 = some demoViz :=
  (cache_store_retrieve_roundtrip VisualizationCache.empty demoViz
    (by intro e he; simp [VisualizationCache.empty] at he)).1

/-! ### Color Assigner (C7)

Modelled from spec §4.4: an evenly spaced hue wheel walked in golden-angle
increments, seeded by label position.  A color is identified by its hue on
the wheel (the remaining HSL components are fixed constants), so the wheel
has as many colors as hue positions. -/

/-- Modelled from the spec: the palette resolution — the number of distinct
hue positions on the wheel (whole degrees). -/
def paletteResolution : Nat := 360

/-- Modelled from the spec: the hue assigned to label position `i`: the
golden-angle increment of 137° per position, wrapped around the wheel. -/
def hueAt (i : Nat) : Nat := (i * 137) % paletteResolution

/-- Modelled from the spec: the Color Assigner — absent from the visible
source — maps each label of the ordered list to the hue at its position, a
pure function of the ordered label sequence with no randomness; a later
duplicate occurrence would overwrite an earlier one in the mapping. -/
def assignColors (labels : List String) : List (String × Nat) :=
  labels.enum.map (fun p => (p.2, hueAt p.1))

/-- Positions below the palette resolution receive pairwise distinct hues:
the golden-angle step 137 is coprime to the 360-degree wheel. -/
lemma hueAt_inj {i j : Nat} (hi : i < paletteResolution)
    (hj : j < paletteResolution) (h : hueAt i = hueAt j) : i = j := by
  have h2 : 137 * i ≡ 137 * j [MOD 360] := by
    unfold hueAt paletteResolution at h
    unfold Nat.ModEq
    rw [Nat.mul_comm 137 i, Nat.mul_comm 137 j]
    exact h
  have h3 := Nat.ModEq.cancel_left_of_coprime (by decide) h2
  unfold Nat.ModEq at h3
  unfold paletteResolution at hi hj
  rwa [Nat.mod_eq_of_lt hi, Nat.mod_eq_of_lt hj] at h3

/-- C7: for a duplicate-free label list no longer than the palette
resolution, distinct labels receive distinct colors, and the assignment is
a pure deterministic function of the ordered label sequence: equal label
lists yield the identical mapping. -/
theorem assignColors_distinct (labels : List String) (_h1 : labels.Nodup)
    (h2 : labels.length ≤ paletteResolution) :
    (∀ p ∈ assignColors labels, ∀ q ∈ assignColors labels,
      p.1 ≠ q.1 → p.2 ≠ q.2) ∧
    (∀ ls : List String, ls = labels → assignColors ls = assignColors labels) := by
  constructor
  · intro p hp q hq hne heq
    simp only [assignColors, List.mem_map] at hp hq
    rcases hp with ⟨⟨i, a⟩, hia, hpa⟩
    rcases hq with ⟨⟨j, b⟩, hjb, hqb⟩
    obtain ⟨hilt, ha⟩ := List.mem_enum hia
    obtain ⟨hjlt, hb⟩ := List.mem_enum hjb
    rw [← hpa, ← hqb] at heq hne
    have hij : i = j :=
      hueAt_inj (lt_of_lt_of_le hilt h2) (lt_of_lt_of_le hjlt h2) heq
    apply hne
    show a = b
    rw [ha, hb]
    simp only [hij]
  · intro ls h
    rw [h]

/-- Witness for C7: the first two labels of a concrete list get different
hues. -/
theorem assignColors_distinct_w :
    ("king", hueAt 0).2 ≠ ("queen", hueAt 1).2 :=
  (assignColors_distinct ["king", "queen"] (by decide) (by decide)).1
    ("king", hueAt 0) (by decide) ("queen", hueAt 1) (by decide) (by decide)

/-! ### TF-IDF Engine (C6)

Modelled from spec §4.2: tokenize (lowercase, split on non-alphanumeric
boundaries, drop empties), lexicographically sorted distinct-token feature
vocabulary, smoothed idf `ln((1+N)/(1+df)) + 1`, tf×idf cells, and
L2-normalization of each document row (all-zero rows left as they are). -/

/-- Modelled from the spec: code-point lexicographic comparison on
character lists, giving the deterministic vocabulary order. -/
def lexLe : List Char → List Char → Bool
  | [], _ => true
  | _ :: _, [] => false
  | a :: as, b :: bs => if a = b then lexLe as bs else decide (a.toNat < b.toNat)

/-- Lexicographic order on strings. -/
def strLe (a b : String) : Bool := lexLe a.data b.data

/-- Insert a string into a `strLe`-sorted list. -/
def insertSorted (x : String) : List String → List String
  | [] => [x]
  | y :: ys => if strLe x y then x :: y :: ys else y :: insertSorted x ys

/-- Insertion sort by `strLe`. -/
def sortStrings (l : List String) : List String := l.foldr insertSorted []

/-- Modelled from the spec: TF-IDF tokenization — lowercase the document,
split on non-alphanumeric boundaries, drop empty tokens.  The engine itself
is absent from the visible source. -/
def tokenize (s : String) : List String :=
  ((splitOnPred (fun c => !c.isAlphanum) (s.data.map Char.toLower)).map
    List.asString).filter (fun t => t ≠ "")

/-- Modelled from the spec: the feature vocabulary — the lexicographically
sorted set of distinct tokens across the collection. -/
def featureVocabulary (docs : List String) : List String :=
  sortStrings (docs.flatMap tokenize).dedup

/-- Modelled from the spec: document frequency of term `t` — the number of
documents containing it. -/
def docFrequency (docs : List String) (t : String) : Nat :=
  (docs.filter (fun d => t ∈ tokenize d)).length

/-- Modelled from the spec: smoothed inverse document frequency,
`ln((1 + N) / (1 + df_t)) + 1`. -/
noncomputable def idf (docs : List String) (t : String) : ℝ :=
  Real.log ((1 + (docs.length : ℝ)) / (1 + (docFrequency docs t : ℝ))) + 1

/-- Modelled from the spec: the unnormalized tf×idf row of one document,
one cell per vocabulary feature. -/
noncomputable def tfidfRawRow (docs : List String) (d : String) : List ℝ :=
  (featureVocabulary docs).map
    (fun t => (((tokenize d).count t : ℝ)) * idf docs t)

/-- Squared L2 norm of a row. -/
noncomputable def rowSumSq (r : List ℝ) : ℝ := (r.map (fun x => x * x)).sum

/-- Modelled from the spec: L2-normalize a document row to unit length;
rows of all zeros remain zero, not divided. -/
noncomputable def l2normalize (r : List ℝ) : List ℝ :=
  if rowSumSq r = 0 then r else r.map (fun x => x / Real.sqrt (rowSumSq r))

/-- Modelled from the spec: `fit_transform(documents)` — the ordered
feature vocabulary and the L2-normalized tf-idf matrix, one row per
document, in document order. -/
noncomputable def fitTransform (docs : List String) :
    List String × List (List ℝ) :=
  (featureVocabulary docs, docs.map (fun d => l2normalize (tfidfRawRow docs d)))

/-- A sum of squares is non-negative. -/
lemma rowSumSq_nonneg (r : List ℝ) : 0 ≤ rowSumSq r := by
  unfold rowSumSq
  apply List.sum_nonneg
  intro x hx
  rcases List.mem_map.mp hx with ⟨y, -, rfl⟩
  exact mul_self_nonneg y

/-- A row with a non-zero entry has positive squared norm. -/
lemma rowSumSq_pos_of_mem_ne_zero {r : List ℝ} {x : ℝ} (hx : x ∈ r)
    (hne : x ≠ 0) : 0 < rowSumSq r := by
  have hmem : x * x ∈ r.map (fun y => y * y) := List.mem_map.mpr ⟨x, hx, rfl⟩
  have hle : x * x ≤ rowSumSq r :=
    List.single_le_sum
      (fun y hy => by rcases List.mem_map.mp hy with ⟨z, -, rfl⟩
                      exact mul_self_nonneg z) _ hmem
  have hpos : 0 < x * x := mul_self_pos.mpr hne
  linarith

/-- Dividing every entry by `c` divides the squared norm by `c * c`. -/
lemma rowSumSq_map_div (r : List ℝ) (c : ℝ) :
    rowSumSq (r.map (fun x => x / c)) = rowSumSq r / (c * c) := by
  induction r with
  | nil => simp [rowSumSq]
  | cons a l ih =>
    simp only [rowSumSq, List.map_cons, List.sum_cons] at ih ⊢
    rw [ih, div_mul_div_comm, div_add_div_same]

/-- Normalizing a row of non-zero squared norm yields squared norm 1. -/
lemma l2normalize_unit (r : List ℝ) (h : rowSumSq r ≠ 0) :
    rowSumSq (l2normalize r) = 1 := by
  have hpos : 0 < rowSumSq r := lt_of_le_of_ne (rowSumSq_nonneg r) (Ne.symm h)
  unfold l2normalize
  rw [if_neg h, rowSumSq_map_div, Real.mul_self_sqrt (le_of_lt hpos),
    div_self h]

/-- C6: every row of the matrix returned by `fit_transform` has squared L2
norm 1 whenever it has a non-zero entry; and each row is the normalization
of its document's raw row, with an all-zero raw row passed through
unchanged rather than divided. -/
theorem fitTransform_rows_unit_norm (docs : List String) (r : List ℝ)
    (hr : r ∈ (fitTransform docs).2) :
    ((∃ x ∈ r, x ≠ 0) → rowSumSq r = 1) ∧
    (∃ d ∈ docs, r = l2normalize (tfidfRawRow docs d) ∧
      (rowSumSq (tfidfRawRow docs d) = 0 → r = tfidfRawRow docs d)) := by
  simp only [fitTransform, List.mem_map] at hr
  rcases hr with ⟨d, hd, hrd⟩
  constructor
  · rintro ⟨x, hx, hxne⟩
    by_cases h0 : rowSumSq (tfidfRawRow docs d) = 0
    · rw [← hrd] at hx
      unfold l2normalize at hx
      rw [if_pos h0] at hx
      exact absurd h0 (ne_of_gt (rowSumSq_pos_of_mem_ne_zero hx hxne))
    · rw [← hrd]
      exact l2normalize_unit _ h0
  · refine ⟨d, hd, hrd.symm, fun h0 => ?_⟩
    rw [← hrd]
    unfold l2normalize
    rw [if_pos h0]

/-- The one-document, one-token collection tokenizes to one feature. -/
lemma tokenize_single : tokenize "a" = ["a"] := by decide

/-- Its feature vocabulary is that single token. -/
lemma vocab_single : featureVocabulary ["a"] = ["a"] := by decide

/-- Its raw row is `[1]`: tf = 1 and idf = ln(2/2) + 1 = 1. -/
lemma rawRow_single : tfidfRawRow ["a"] "a" = [(1 : ℝ)] := by
  have hdf : docFrequency ["a"] "a" = 1 := by decide
  have hcount : (tokenize "a").count "a" = 1 := by decide
  rw [tfidfRawRow, vocab_single]
  simp only [List.map_cons, List.map_nil, hcount]
  rw [idf, hdf]
  norm_num [Real.log_one]

/-- The whole transform of `["a"]` is the single unit row `[1]`. -/
lemma fitTransform_single : (fitTransform ["a"]).2 = [[(1 : ℝ)]] := by
  have h1 : rowSumSq [(1 : ℝ)] = 1 := by simp [rowSumSq]
  simp only [fitTransform, List.map_cons, List.map_nil]
  rw [rawRow_single]
  unfold l2normalize
  rw [if_neg (by rw [h1]; norm_num), h1]
  simp [Real.sqrt_one]

/-- Witness for C6: the row produced for the collection `["a"]` has squared
norm 1. -/
theorem fitTransform_rows_unit_norm_w : rowSumSq [(1 : ℝ)] = 1 :=
  (fitTransform_rows_unit_norm ["a"] [1]
    (by rw [fitTransform_single]; exact List.mem_singleton.mpr rfl)).1
    ⟨1, List.mem_singleton.mpr rfl, one_ne_zero⟩

end TfidGlove
